import Mathlib

/-!
Verification development for the Gradewise grading system
(`utils/grading.py`).  The Python code is shallowly embedded: pure string
manipulation becomes Lean functions on `List Char` / `String`; the
stateful `GradingSystem` object becomes an explicit `GState` record with
state-passing; fallible operations (Python exceptions) are `Except`
values handled exactly where the source has `try`/`except`; network
interaction is abstracted by oracle function parameters.

Python `re` note: the first pattern of `_extract_json_object` uses the
regex-recursion extension `(?R)`, which the standard-library `re` module
does not support: `re.finditer` raises
`re.error("unknown extension ?R at position 12")` while compiling it,
before any matching happens.  The embedding models this compile-time
failure faithfully, because it dominates the observable behaviour of the
response parser.
-/

namespace Gradewise

/-- The whitespace characters of Python `str.strip()` (ASCII subset:
space, tab, newline, carriage return, vertical tab, form feed); the same
set models `\s` of Python regexes on ASCII text. -/
def pyWs (c : Char) : Bool :=
  c = ' ' || c = '\t' || c = '\n' || c = '\r' || c = Char.ofNat 11 || c = Char.ofNat 12

/-- `listStartsWith pat s` is true when `pat` is a prefix of `s`. -/
def listStartsWith : List Char → List Char → Bool
  | [], _ => true
  | _ :: _, [] => false
  | p :: ps, c :: cs => p = c && listStartsWith ps cs

/-- Find the first occurrence of `pat` in `s`; return the text before the
occurrence and the text after it (the occurrence itself removed). -/
def splitSub (pat : List Char) : List Char → Option (List Char × List Char)
  | [] => none
  | c :: rest =>
    if listStartsWith pat (c :: rest) then some ([], (c :: rest).drop pat.length)
    else (splitSub pat rest).map (fun pr => (c :: pr.1, pr.2))

/-- Python `str.strip()` of the trailing end. -/
def dropTrailWs (l : List Char) : List Char :=
  l.foldr (fun c acc => if acc.isEmpty && pyWs c then [] else c :: acc) []

/-- Python `str.strip()` on char lists. -/
def stripChars (l : List Char) : List Char :=
  dropTrailWs (l.dropWhile pyWs)

/-- Python `str.strip()`. -/
def pyStrip (s : String) : String :=
  ⟨stripChars s.toList⟩

/-- One pass of `re.sub(r"(三backquote)(?:json)?\n?(.*?)(三backquote)", r"\1", text, flags=re.DOTALL)`
from `_sanitize_json_text` (written here with `三backquote` for the
three-backquote fence marker).  At each position, a match consumes the
opening fence, an optional `json` tag, an optional newline, then the lazy
body up to the nearest closing fence; the match is replaced by the body.
The optional `json` / newline parts are consumed greedily, which agrees
with the backtracking regex because neither can contain a backquote. -/
def btick : Char := Char.ofNat 96

def fenceScan : Nat → List Char → List Char
  | 0, s => s
  | _ + 1, [] => []
  | fuel + 1, c :: rest =>
    if listStartsWith [btick, btick, btick] (c :: rest) then
      let afterOpen := (c :: rest).drop 3
      let afterJson :=
        if listStartsWith ['j', 's', 'o', 'n'] afterOpen then afterOpen.drop 4 else afterOpen
      let afterNl := match afterJson with
        | '\n' :: t => t
        | t => t
      match splitSub [btick, btick, btick] afterNl with
      | some (content, afterClose) => content ++ fenceScan fuel afterClose
      | none => c :: fenceScan fuel rest
    else c :: fenceScan fuel rest

/-- One pass of `re.sub(r"//.*?\n|/\*.*?\*/", "", text, flags=re.DOTALL)`
from `_sanitize_json_text`: a `//` comment runs lazily to the nearest
newline (newline included), a `/* */` comment runs lazily to the nearest
`*/`; matches are removed, unmatched text is kept. -/
def commentScan : Nat → List Char → List Char
  | 0, s => s
  | _ + 1, [] => []
  | fuel + 1, c :: rest =>
    if listStartsWith ['/', '/'] (c :: rest) then
      match splitSub ['\n'] ((c :: rest).drop 2) with
      | some (_, after) => commentScan fuel after
      | none => c :: commentScan fuel rest
    else if listStartsWith ['/', '*'] (c :: rest) then
      match splitSub ['*', '/'] ((c :: rest).drop 2) with
      | some (_, after) => commentScan fuel after
      | none => c :: commentScan fuel rest
    else c :: commentScan fuel rest

/-- `GradingSystem._sanitize_json_text`: remove code-fence wrappers,
remove comments, strip surrounding whitespace. -/
def sanitizeJsonText (text : String) : String :=
  let l1 := fenceScan (text.toList.length + 1) text.toList
  let l2 := commentScan (l1.length + 1) l1
  ⟨stripChars l2⟩

/-! ## JSON values and a model of Python `json.loads`

JSON numbers are modelled as exact rationals (adequate for the integer
and short-decimal literals the grading pipeline deals in).  Restrictions
against CPython's `json.loads`, noted rather than modelled: exponent
parts are supported, but the non-standard `NaN`/`Infinity` literals and
`\uXXXX` surrogate pairing are not. -/

/-- Exact decimal number `mant / 10 ^ exp`, the model of the numeric
values (`int` / `float`) flowing through the grading pipeline.  All of
its operations are plain `Int`/`Nat` arithmetic, so the kernel can
evaluate them; the decimal literals of the pipeline are represented
exactly (the binary rounding of Python floats is immaterial at the
precision the claims exercise and is not modelled). -/
structure Dec where
  mant : Int
  exp : Nat
deriving DecidableEq, Repr

/-- An integer as a decimal. -/
def Dec.ofInt (n : Int) : Dec := ⟨n, 0⟩

/-- Value comparison of decimals (cross-multiplied). -/
def Dec.le (a b : Dec) : Bool := a.mant * (10 : Int) ^ b.exp ≤ b.mant * (10 : Int) ^ a.exp

/-- Python `min` on two numbers: the first argument when it is not
greater. -/
def Dec.minD (a b : Dec) : Dec := if a.le b then a else b

/-- The rational value of a decimal (specification view only). -/
def Dec.toRat (d : Dec) : ℚ := (d.mant : ℚ) / (10 : ℚ) ^ d.exp

/-- A parsed JSON value, as produced by `json.loads`.  Object fields keep
insertion order, mirroring Python dicts. -/
inductive Json where
  | null : Json
  | bool (b : Bool) : Json
  | num (q : Dec) : Json
  | str (s : String) : Json
  | arr (items : List Json) : Json
  | obj (fields : List (String × Json)) : Json

/-- Shorthand for integer-valued JSON numbers. -/
def Json.int (n : Int) : Json := .num (Dec.ofInt n)

/-- Python-dict style association-list update: an existing key keeps its
position and gets the new value; a new key is appended.  Models both
dict item assignment and duplicate keys in a JSON object literal
(last value wins). -/
def updateAssoc {α : Type} (l : List (String × α)) (k : String) (v : α) :
    List (String × α) :=
  match l with
  | [] => [(k, v)]
  | (k1, v1) :: rest =>
    if k1 = k then (k1, v) :: rest else (k1, v1) :: updateAssoc rest k v

/-- Skip JSON insignificant whitespace (space, tab, newline, CR). -/
def skipJsonWs : List Char → List Char
  | [] => []
  | c :: rest =>
    if c = ' ' || c = '\t' || c = '\n' || c = '\r' then skipJsonWs rest else c :: rest

def isDigitCh (c : Char) : Bool := '0' ≤ c && c ≤ '9'

/-- Longest digit run at the front. -/
def takeDigits : List Char → List Char × List Char
  | [] => ([], [])
  | c :: rest =>
    if isDigitCh c then
      let (d, r) := takeDigits rest
      (c :: d, r)
    else ([], c :: rest)

def digitsToNat (l : List Char) : Nat :=
  l.foldl (fun a c => a * 10 + (c.toNat - 48)) 0

def isHexCh (c : Char) : Bool :=
  isDigitCh c || ('a' ≤ c && c ≤ 'f') || ('A' ≤ c && c ≤ 'F')

def hexVal (c : Char) : Nat :=
  if isDigitCh c then c.toNat - 48
  else if 'a' ≤ c && c ≤ 'f' then c.toNat - 87
  else c.toNat - 55

/-- Signed-exponent tail `[+-]?digits` of a JSON exponent part. -/
def applyJsonExpSigned (v0 : Dec) (r1 : List Char) : Option (Dec × List Char) :=
  let (negE, r2) := match r1 with
    | '+' :: t => (false, t)
    | '-' :: t => (true, t)
    | t => (false, t)
  match takeDigits r2 with
  | ([], _) => none
  | (es, r3) =>
    let e := digitsToNat es
    if negE then some (⟨v0.mant, v0.exp + e⟩, r3)
    else some (⟨v0.mant * (10 : Int) ^ e, v0.exp⟩, r3)

/-- Optional JSON exponent part `([eE][+-]?digits)?` applied to a value. -/
def applyJsonExp (v0 : Dec) (r : List Char) : Option (Dec × List Char) :=
  match r with
  | 'e' :: r1 => applyJsonExpSigned v0 r1
  | 'E' :: r1 => applyJsonExpSigned v0 r1
  | _ => some (v0, r)

/-- JSON number grammar: `-? int frac? exp?`, with `int` rejecting
leading zeros.  Returns the value and the unconsumed rest. -/
def parseJsonNumber (s : List Char) : Option (Dec × List Char) :=
  let (neg, s1) := match s with
    | '-' :: t => (true, t)
    | t => (false, t)
  match takeDigits s1 with
  | ([], _) => none
  | (ds, r) =>
    if 1 < ds.length && ds.headI = '0' then none
    else
      let withFrac : Option (Dec × List Char) :=
        match r with
        | '.' :: r1 =>
          match takeDigits r1 with
          | ([], _) => none
          | (fs, r2) =>
            some (⟨(digitsToNat (ds ++ fs) : Int), fs.length⟩, r2)
        | _ => some (⟨(digitsToNat ds : Int), 0⟩, r)
      match withFrac with
      | none => none
      | some (v0, r2) =>
        (applyJsonExp v0 r2).map
          (fun vr => (if neg then ⟨-vr.1.mant, vr.1.exp⟩ else vr.1, vr.2))

/-- Body of a JSON string after the opening quote: ordinary characters
(raw control characters rejected, as in strict `json.loads`), the simple
escapes, and `\uXXXX`.  Returns the decoded characters and the rest
after the closing quote. -/
def jsonStringBody : List Char → Option (List Char × List Char)
  | [] => none
  | '"' :: rest => some ([], rest)
  | '\\' :: rest =>
    match rest with
    | [] => none
    | e :: rest1 =>
      let simple : Option Char :=
        if e = '"' then some '"'
        else if e = '\\' then some '\\'
        else if e = '/' then some '/'
        else if e = 'b' then some (Char.ofNat 8)
        else if e = 'f' then some (Char.ofNat 12)
        else if e = 'n' then some '\n'
        else if e = 'r' then some '\r'
        else if e = 't' then some '\t'
        else none
      match simple with
      | some c => (jsonStringBody rest1).map (fun pr => (c :: pr.1, pr.2))
      | none =>
        if e = 'u' then
          match rest1 with
          | h1 :: h2 :: h3 :: h4 :: rest2 =>
            if isHexCh h1 && isHexCh h2 && isHexCh h3 && isHexCh h4 then
              let n := ((hexVal h1 * 16 + hexVal h2) * 16 + hexVal h3) * 16 + hexVal h4
              (jsonStringBody rest2).map (fun pr => (Char.ofNat n :: pr.1, pr.2))
            else none
          | _ => none
        else none
  | c :: rest =>
    if c.toNat < 32 then none
    else (jsonStringBody rest).map (fun pr => (c :: pr.1, pr.2))

/-- Parser obligations for the recursive-descent model of `json.loads`:
a value, the members of an object after `{`, or the items of an array
after `[` (with the fields/items accumulated so far). -/
inductive PReq where
  | value (s : List Char) : PReq
  | objFirst (s : List Char) : PReq
  | objMember (s : List Char) (acc : List (String × Json)) : PReq
  | arrFirst (s : List Char) : PReq
  | arrItem (s : List Char) (acc : List Json) : PReq

/-- One recursive-descent parser for JSON values, structurally recursive
on fuel so that the kernel can evaluate it.  `objFirst`/`arrFirst`
expect either an immediate closing bracket (empty container) or the
first member/item; `objMember`/`arrItem` parse one entry then dispatch
on `,` / closing bracket.  Object fields collapse duplicate keys
last-value-wins, as Python dicts do. -/
def parseStep : Nat → PReq → Option (Json × List Char)
  | 0, _ => none
  | fuel + 1, .value s =>
    match s with
    | '"' :: r => (jsonStringBody r).map (fun pr => (Json.str ⟨pr.1⟩, pr.2))
    | '{' :: r => parseStep fuel (.objFirst (skipJsonWs r))
    | '[' :: r => parseStep fuel (.arrFirst (skipJsonWs r))
    | 't' :: 'r' :: 'u' :: 'e' :: r => some (.bool true, r)
    | 'f' :: 'a' :: 'l' :: 's' :: 'e' :: r => some (.bool false, r)
    | 'n' :: 'u' :: 'l' :: 'l' :: r => some (.null, r)
    | _ => (parseJsonNumber s).map (fun pr => (Json.num pr.1, pr.2))
  | fuel + 1, .objFirst s =>
    match s with
    | '}' :: r => some (.obj [], r)
    | _ => parseStep fuel (.objMember s [])
  | fuel + 1, .objMember s acc =>
    match s with
    | '"' :: r =>
      match jsonStringBody r with
      | none => none
      | some (keyChars, r1) =>
        match skipJsonWs r1 with
        | ':' :: r2 =>
          match parseStep fuel (.value (skipJsonWs r2)) with
          | none => none
          | some (v, r3) =>
            let acc1 := updateAssoc acc ⟨keyChars⟩ v
            match skipJsonWs r3 with
            | ',' :: r4 => parseStep fuel (.objMember (skipJsonWs r4) acc1)
            | '}' :: r4 => some (.obj acc1, r4)
            | _ => none
        | _ => none
    | _ => none
  | fuel + 1, .arrFirst s =>
    match s with
    | ']' :: r => some (.arr [], r)
    | _ => parseStep fuel (.arrItem s [])
  | fuel + 1, .arrItem s acc =>
    match parseStep fuel (.value s) with
    | none => none
    | some (v, r1) =>
      match skipJsonWs r1 with
      | ',' :: r2 => parseStep fuel (.arrItem (skipJsonWs r2) (acc ++ [v]))
      | ']' :: r2 => some (.arr (acc ++ [v]), r2)
      | _ => none

/-- Model of Python `json.loads`: parse one JSON value surrounded by
optional whitespace; any other trailing content makes the whole parse
fail (`json.JSONDecodeError`), modelled as `none`. -/
def jsonParse (s : String) : Option Json :=
  let l := skipJsonWs s.toList
  match parseStep (2 * l.length + 4) (.value l) with
  | some (v, rest) =>
    match skipJsonWs rest with
    | [] => some v
    | _ => none
  | none => none

/-! ## `GradingSystem._extract_json_object`

The source tries three regex patterns in order.  The first one uses the
recursion extension `(?R)`, which the `regex` third-party module knows
but the imported standard `re` module does not: `re.finditer` raises
`re.error("unknown extension ?R at position 12")` while compiling it.
The pattern texts are carried verbatim (braces written `\x7b`/`\x7d`)
so the unsupported-construct check reads off the actual source. -/

def lbrace : Char := Char.ofNat 123
def rbrace : Char := Char.ofNat 125

/-- The candidate patterns of `_extract_json_object`, in source order. -/
inductive JsonPattern where
  | nested : JsonPattern
  | simple : JsonPattern
  | bounded : JsonPattern

/-- The literal regex text of each pattern. -/
def patternText : JsonPattern → String
  | .nested => "\\\x7b(?:[^\x7b\x7d]|(?R))*\\\x7d"
  | .simple => "\\\x7b[^\x7d]+\\\x7d"
  | .bounded => "\\\x7b.*?\\\x7d(?=\\s|$)"

def occursSub (pat s : List Char) : Bool := (splitSub pat s).isSome

/-- Standard-library `re` rejects the `(?R)` extension at compile time. -/
def reCompileFails (p : JsonPattern) : Bool :=
  occursSub "(?R)".toList (patternText p).toList

/-- `str(e)` of the `re.error` raised for the `(?R)` pattern. -/
def reCompileError : String := "unknown extension ?R at position 12"

/-- Matches of the `simple` pattern (an opening brace, one or more
non-closing-brace characters, a closing brace), leftmost and
non-overlapping as `re.finditer` yields them. -/
def finditerSimple : Nat → List Char → List (List Char)
  | 0, _ => []
  | _ + 1, [] => []
  | fuel + 1, c :: rest =>
    if c = lbrace then
      match splitSub [rbrace] rest with
      | some (between, after) =>
        if between.isEmpty then finditerSimple fuel rest
        else (lbrace :: between ++ [rbrace]) :: finditerSimple fuel after
      | none => finditerSimple fuel rest
    else finditerSimple fuel rest

/-- For the `bounded` pattern: the lazy body up to the first closing
brace that is followed by whitespace or end of text. -/
def boundedClose : List Char → Option (List Char × List Char)
  | [] => none
  | c :: rest =>
    if c = rbrace && (match rest with
                      | [] => true
                      | h :: _ => pyWs h) then
      some ([], rest)
    else (boundedClose rest).map (fun pr => (c :: pr.1, pr.2))

/-- Matches of the `bounded` pattern (brace, lazy anything, brace with a
whitespace-or-end lookahead), leftmost and non-overlapping. -/
def finditerBounded : Nat → List Char → List (List Char)
  | 0, _ => []
  | _ + 1, [] => []
  | fuel + 1, c :: rest =>
    if c = lbrace then
      match boundedClose rest with
      | some (content, after) =>
        (lbrace :: content ++ [rbrace]) :: finditerBounded fuel after
      | none => finditerBounded fuel rest
    else finditerBounded fuel rest

/-- The match list each pattern would yield.  The `nested` pattern never
produces matches because its compilation fails first. -/
def patternMatches : JsonPattern → String → List String
  | .nested, _ => []
  | .simple, t => (finditerSimple (t.toList.length + 1) t.toList).map (fun l => ⟨l⟩)
  | .bounded, t => (finditerBounded (t.toList.length + 1) t.toList).map (fun l => ⟨l⟩)

/-- First candidate that `json.loads` accepts. -/
def firstValidJson : List String → Option String
  | [] => none
  | m :: rest => if (jsonParse m).isSome then some m else firstValidJson rest

def extractJsonGo (text : String) : List JsonPattern → Except String (Option String)
  | [] => .ok none
  | p :: rest =>
    if reCompileFails p then .error reCompileError
    else
      match firstValidJson (patternMatches p text) with
      | some m => .ok (some m)
      | none => extractJsonGo text rest

/-- `GradingSystem._extract_json_object`: try the three patterns in
order, return the first candidate that validates as JSON, `none` when no
candidate parses; an `re.error` escapes as an exception. -/
def extractJsonObject (text : String) : Except String (Option String) :=
  extractJsonGo text [.nested, .simple, .bounded]

/-! ## Heuristic field extraction (`_parse_json_response` fallback)

Each regex of the structured-extraction fallback is modelled as a
position-by-position scan with the alternation/greediness behaviour of
`re.search` / `re.findall` / `re.split` on its specific pattern. -/

def isColonWs (c : Char) : Bool := c = ':' || pyWs c

/-- Case-insensitive keyword match: `kw` (given lowercase) against the
front of `s`; returns the rest after the keyword. -/
def afterKeywordCI : List Char → List Char → Option (List Char)
  | [], rest => some rest
  | _ :: _, [] => none
  | p :: ps, c :: cs => if c.toLower = p then afterKeywordCI ps cs else none

/-- `[:\s]+` — at least one colon/whitespace, consumed greedily. -/
def sepThen (s : List Char) : Option (List Char) :=
  match s with
  | c :: _ => if isColonWs c then some (s.dropWhile isColonWs) else none
  | [] => none

/-- Capture of `\d+(?:\.\d+)?` at the current position (made a `float`
by the source). -/
def numCapture (s : List Char) : Option (Dec × List Char) :=
  match takeDigits s with
  | ([], _) => none
  | (ds, r) =>
    match r with
    | '.' :: r1 =>
      match takeDigits r1 with
      | ([], _) => some (⟨(digitsToNat ds : Int), 0⟩, '.' :: r1)
      | (fs, r2) => some (⟨(digitsToNat (ds ++ fs) : Int), fs.length⟩, r2)
    | _ => some (⟨(digitsToNat ds : Int), 0⟩, r)

def kwChars (kw : String) : List Char := kw.toList

/-- Alternatives of `(?:score|grade|marks?)` in attempt order (`marks?`
greedily prefers the `s`). -/
def scoreKw : List (List Char) :=
  [kwChars "score", kwChars "grade", kwChars "marks", kwChars "mark"]

/-- One attempt of `(?:score|grade|marks?)[:\s]+(\d+(?:\.\d+)?)` at a
fixed position. -/
def scoreAttempt1 (s : List Char) : Option Dec :=
  scoreKw.findSome? fun kw =>
    (afterKeywordCI kw s).bind fun r1 =>
    (sepThen r1).bind fun r2 =>
    (numCapture r2).map (fun pr => pr.1)

def scoreSearch1 : List Char → Option Dec
  | [] => none
  | c :: rest =>
    match scoreAttempt1 (c :: rest) with
    | some q => some q
    | none => scoreSearch1 rest

/-- `(?:20|twenty)` at the current position (case-insensitive). -/
def twentyAt (s : List Char) : Bool :=
  listStartsWith ['2', '0'] s || (afterKeywordCI (kwChars "twenty") s).isSome

/-- One attempt of
`(\d+(?:\.\d+)?)\s*(?:/|\s*out\s*of\s*)(?:20|twenty)` at a fixed
position. -/
def scoreAttempt2 (s : List Char) : Option Dec :=
  (numCapture s).bind fun pr =>
    let r1 := pr.2.dropWhile pyWs
    match r1 with
    | '/' :: r2 => if twentyAt r2 then some pr.1 else none
    | _ =>
      (afterKeywordCI (kwChars "out") r1).bind fun r2 =>
      (afterKeywordCI (kwChars "of") (r2.dropWhile pyWs)).bind fun r3 =>
      if twentyAt (r3.dropWhile pyWs) then some pr.1 else none

def scoreSearch2 : List Char → Option Dec
  | [] => none
  | c :: rest =>
    match scoreAttempt2 (c :: rest) with
    | some q => some q
    | none => scoreSearch2 rest

/-- The score loop of the fallback: first pattern that matches wins, the
captured number clamped by `min(..., 20)`. -/
def extractScore (cleaned : List Char) : Option Dec :=
  match scoreSearch1 cleaned with
  | some q => some (q.minD (Dec.ofInt 20))
  | none =>
    match scoreSearch2 cleaned with
    | some q => some (q.minD (Dec.ofInt 20))
    | none => none

def feedbackKw : List (List Char) :=
  [kwChars "feedback", kwChars "comments", kwChars "comment"]

/-- One attempt of `(?:feedback|comments?)[:\s]+([^\n]+)` at a fixed
position.  After the greedy separator run, a remaining character is
never a newline, so the capture is the rest of that line; when the run
reaches end of text the captured group could only be whitespace, which
the subsequent `strip()` erases — equivalent to not matching. -/
def feedbackAttempt (s : List Char) : Option (List Char) :=
  feedbackKw.findSome? fun kw =>
    (afterKeywordCI kw s).bind fun r1 =>
    (sepThen r1).bind fun r2 =>
    match r2 with
    | [] => none
    | _ => some (r2.takeWhile (fun c => c ≠ '\n'))

def feedbackSearch : List Char → Option (List Char)
  | [] => none
  | c :: rest =>
    match feedbackAttempt (c :: rest) with
    | some g => some g
    | none => feedbackSearch rest

def extractFeedback (cleaned : List Char) : String :=
  match feedbackSearch cleaned with
  | some g => pyStrip ⟨g⟩
  | none => ""

def improvementsKw : List (List Char) :=
  [kwChars "improvements", kwChars "improvement",
   kwChars "suggestions", kwChars "suggestion"]

/-- Greedy `((?:[^\n]+\n?)+)`: consecutive nonempty lines, each with its
trailing newline, stopping before an empty line or end of text. -/
def takeLines : Nat → List Char → List Char
  | 0, _ => []
  | fuel + 1, s =>
    let line := s.takeWhile (fun c => c ≠ '\n')
    match s.drop line.length with
    | '\n' :: more =>
      match more with
      | m :: _ =>
        if m = '\n' then line ++ ['\n']
        else line ++ '\n' :: takeLines fuel more
      | [] => line ++ ['\n']
    | _ => line

/-- One attempt of `(?:improvements?|suggestions?)[:\s]+((?:[^\n]+\n?)+)`
at a fixed position. -/
def improvementsAttempt (s : List Char) : Option (List Char) :=
  improvementsKw.findSome? fun kw =>
    (afterKeywordCI kw s).bind fun r1 =>
    (sepThen r1).bind fun r2 =>
    match r2 with
    | [] => none
    | _ => some (takeLines r2.length r2)

def improvementsSearch : List Char → Option (List Char)
  | [] => none
  | c :: rest =>
    match improvementsAttempt (c :: rest) with
    | some g => some g
    | none => improvementsSearch rest

/-- One separator token of the `re.split` pattern
`(?:\d+\.|â€¢|-|\n)+` (the bullet alternative is the mojibake
three-character sequence present in the source). -/
def bulletTok (s : List Char) : Option (List Char) :=
  match s with
  | '-' :: r => some r
  | '\n' :: r => some r
  | 'â' :: '€' :: '¢' :: r => some r
  | _ =>
    match takeDigits s with
    | ([], _) => none
    | (_, r) =>
      match r with
      | '.' :: r2 => some r2
      | _ => none

def bulletRunAux : Nat → List Char → List Char
  | 0, s => s
  | fuel + 1, s =>
    match bulletTok s with
    | some r => bulletRunAux fuel r
    | none => s

/-- A maximal nonempty run of separator tokens. -/
def bulletRun (s : List Char) : Option (List Char) :=
  (bulletTok s).map (fun r => bulletRunAux r.length r)

/-- `re.split` on separator runs: pieces between matches, in order
(empty pieces included, filtered later as the source does). -/
def splitBullets : Nat → List Char → List Char → List (List Char) → List (List Char)
  | 0, s, cur, acc => acc ++ [cur ++ s]
  | _ + 1, [], cur, acc => acc ++ [cur]
  | fuel + 1, c :: rest, cur, acc =>
    match bulletRun (c :: rest) with
    | some r => splitBullets fuel r [] (acc ++ [cur])
    | none => splitBullets fuel rest (cur ++ [c]) acc

/-- The improvements list: split the labelled block body on enumeration
markers, strip each fragment, keep the nonempty ones. -/
def extractImprovements (cleaned : List Char) : List String :=
  match improvementsSearch cleaned with
  | none => []
  | some body =>
    ((splitBullets (body.length + 1) body [] []).map (fun l => pyStrip ⟨l⟩)).filter
      (fun f => f ≠ "")

def breakdownKw : List (List Char) :=
  [kwChars "question", kwChars "part", kwChars "section"]

/-- One attempt of
`(?:question|part|section)\s*(\d+)[:\s]+(\d+(?:\.\d+)?)` at a fixed
position; on success also returns the rest after the whole match (for
the non-overlapping `findall` scan). -/
def breakdownAttempt (s : List Char) : Option ((List Char × Dec) × List Char) :=
  breakdownKw.findSome? fun kw =>
    (afterKeywordCI kw s).bind fun r1 =>
    match takeDigits (r1.dropWhile pyWs) with
    | ([], _) => none
    | (qs, r3) =>
      (sepThen r3).bind fun r4 =>
      (numCapture r4).map (fun pr => ((qs, pr.1), pr.2))

def breakdownFindall : Nat → List Char → List (List Char × Dec)
  | 0, _ => []
  | _ + 1, [] => []
  | fuel + 1, c :: rest =>
    match breakdownAttempt (c :: rest) with
    | some (m, after) => m :: breakdownFindall fuel after
    | none => breakdownFindall fuel rest

/-- The breakdown mapping `question{N} ↦ value`, later occurrences of a
label overwriting earlier ones as in a dict comprehension. -/
def extractBreakdown (cleaned : List Char) : List (String × Json) :=
  (breakdownFindall (cleaned.length + 1) cleaned).foldl
    (fun acc m => updateAssoc acc ("question" ++ (⟨m.1⟩ : String)) (Json.num m.2)) []

/-- The structured-extraction fallback of `_parse_json_response`
(lines 218–273): the `extracted` record with score, feedback,
improvements and breakdown recovered by regexes from the sanitized text,
and `raw_llm_output` set to the original response. -/
def heuristicExtract (cleaned original : String) : Json :=
  let cl := cleaned.toList
  .obj
    [("score", .num ((extractScore cl).getD (Dec.ofInt 0))),
     ("feedback", .str (extractFeedback cl)),
     ("improvements", .arr ((extractImprovements cl).map Json.str)),
     ("breakdown", .obj (extractBreakdown cl)),
     ("raw_llm_output", .str original)]

/-! ## `GradingSystem._parse_json_response` -/

/-- Python dict read `d.get(k)` on a JSON value (only objects have
items). -/
def Json.lookup : Json → String → Option Json
  | .obj fields, k => List.lookup k fields
  | _, _ => none

/-- Python item assignment `value[k] = v`: succeeds on dicts, raises a
`TypeError` on any other value `json.loads` may have produced (lists,
strings, numbers, booleans, `None`). -/
def Json.setKey : Json → String → Json → Except String Json
  | .obj fields, k, v => .ok (.obj (updateAssoc fields k v))
  | _, _, _ => .error "TypeError: item assignment on non-dict value"

/-- The record built by the final `except` handler of
`_parse_json_response` (lines 277–283). -/
def parseErrorRecord (e : String) (response : String) : Json :=
  .obj
    [("score", .int 0),
     ("feedback", .str "Error parsing model response"),
     ("improvements", .arr [.str "Unable to parse model response"]),
     ("breakdown", .obj [("error", .str e)]),
     ("raw_llm_output", .str response)]

/-- The `try` body of `_parse_json_response`: sanitize, attempt a direct
`json.loads`, on `JSONDecodeError` consult `_extract_json_object`
(whose `re.error` escapes to the enclosing handler), and fall back to
the structured heuristic extraction when the extractor reports no
candidate. -/
def parseJsonResponseBody (response : String) : Except String Json :=
  let cleaned := sanitizeJsonText response
  match jsonParse cleaned with
  | some j => .ok j
  | none =>
    match extractJsonObject cleaned with
    | .error e => .error e
    | .ok (some jsonStr) =>
      match jsonParse jsonStr with
      | some j => .ok j
      | none => .error "Expecting value: line 1 column 1 (char 0)"
    | .ok none => .ok (heuristicExtract cleaned response)

/-- `GradingSystem._parse_json_response`: the `try` body with every
exception converted by the handler into the terminal error record. -/
def parseJsonResponse (response : String) : Json :=
  match parseJsonResponseBody response with
  | .ok j => j
  | .error e => parseErrorRecord e response

/-! ## `GradingSystem` state, registry and orchestration

The mutable instance state of `GradingSystem` becomes an explicit
record; hosted clients are represented by the credential they hold.
Network effects are oracle parameters: `vnet key provider` models the
validation request of `_validate_api_key` (`.ok b` = an HTTP reply with
`response.ok = b`, `.error` = a raised transport exception), and
`net provider model prompt credential` models one chat-completion call
of the provider gateway (`.error` = any exception raised inside the
`_call_*_api` helper). -/

structure GState where
  local_models : List String
  online_models : List (String × List String)
  openai_client : Option String
  claude_client : Option String
  groq_api_key : Option String
deriving DecidableEq, Repr

/-- Python `str.lower()` (character-wise). -/
def strLower (s : String) : String := ⟨s.toList.map Char.toLower⟩

/-- `GradingSystem._validate_api_key`: only `groq`, `anthropic` and
`openai` have validation branches (the openai SDK call returns `True`
whenever it does not raise); any other provider falls through to
`return False`, and an exception inside the `try` yields `False`. -/
def validateApiKey (vnet : String → String → Except String Bool)
    (apiKey provider : String) : Bool :=
  let attempt : Except String Bool :=
    if strLower provider = "groq" then vnet apiKey "groq"
    else if strLower provider = "anthropic" then vnet apiKey "anthropic"
    else if strLower provider = "openai" then (vnet apiKey "openai").map (fun _ => true)
    else .ok false
  match attempt with
  | .ok b => b
  | .error _ => false

/-- `GradingSystem._get_provider_from_model`: local list first, then the
provider lists in dict-insertion order, defaulting to `"local"`. -/
def getProviderFromModel (s : GState) (model : String) : String :=
  if model ∈ s.local_models then "local"
  else
    match s.online_models.find? (fun pm => pm.2.contains model) with
    | some pm => pm.1
    | none => "local"

/-- Outcome of one `requests.get` as the refresh loop sees it: a JSON
body from an OK response, a non-OK status, or a raised exception. -/
inductive NetRes (α : Type) where
  | ok (data : α) : NetRes α
  | badStatus : NetRes α
  | exc (msg : String) : NetRes α

/-- The openai refresh filter `model.id.startswith(("gpt-3", "gpt-4"))`
(`str.startswith` modelled character-wise). -/
def isGptModel (m : String) : Bool :=
  listStartsWith "gpt-3".toList m.toList || listStartsWith "gpt-4".toList m.toList

/-- `GradingSystem.refresh_available_models`.  The local fetch has its
own handler: non-OK keeps the previous list, a request exception empties
it.  The three hosted fetches run inside the outer `try` only — an
exception in any of them jumps to the outer handler, which resets
`local_models` to `[]` and `online_models` to `{}` (clients untouched).
Hosted non-OK statuses are skipped silently.  Groq entries carry an
optional `active` flag defaulting to true. -/
def refresh_available_models (s : GState) (localR : NetRes (List String))
    (openaiR : Except String (List String)) (claudeR : NetRes (List String))
    (groqR : NetRes (List (String × Option Bool))) : GState :=
  let s1 :=
    match localR with
    | .ok l => { s with local_models := l }
    | .badStatus => s
    | .exc _ => { s with local_models := [] }
  let hosted : Except String GState := do
    let s2 ←
      match s1.openai_client, openaiR with
      | some _, .ok l =>
        pure { s1 with online_models := updateAssoc s1.online_models "openai" (l.filter isGptModel) }
      | some _, .error e => throw e
      | none, _ => pure s1
    let s3 ←
      match s2.claude_client, claudeR with
      | some _, .ok l =>
        pure { s2 with online_models := updateAssoc s2.online_models "claude" l }
      | some _, .badStatus => pure s2
      | some _, .exc e => throw e
      | none, _ => pure s2
    match s3.groq_api_key, groqR with
    | some _, .ok l =>
      let activeIds := (l.filter (fun en => en.2.getD true)).map (fun en => en.1)
      pure { s3 with online_models := updateAssoc s3.online_models "groq" activeIds }
    | some _, .badStatus => pure s3
    | some _, .exc e => throw e
    | none, _ => pure s3
  match hosted with
  | .ok s4 => s4
  | .error _ => { s with local_models := [], online_models := [] }

/-- The per-provider JSON-format prompt suffixes of
`evaluate_submission` (`json_format_prompts.get(provider, "")`). -/
def jsonFormatPrompt (provider : String) : String :=
  if provider = "openai" then "\nRespond with a valid JSON object only, no additional text."
  else if provider = "claude" then "\nProvide response as a JSON object, no other text."
  else if provider = "groq" then "\nOutput only a valid JSON object, nothing else."
  else if provider = "local" then "\nFormat response as valid JSON."
  else ""

/-- The grading prompt interpolation of `evaluate_submission` (braces of
the JSON template written `\x7b`/`\x7d`). -/
def buildPrompt (gradingInstructions idealSolution studentSolution suffix : String) : String :=
  "Grade this student solution following these instructions:\n\nGRADING INSTRUCTIONS:\n"
    ++ gradingInstructions
    ++ "\n\nIDEAL SOLUTION:\n" ++ idealSolution
    ++ "\n\nSTUDENT SOLUTION:\n" ++ studentSolution
    ++ "\n\nRespond with a JSON object containing:\n\x7b\n    \"score\": <number between 0-20>,\n    \"feedback\": \"<detailed feedback>\",\n    \"improvements\": [\"<specific improvement suggestions>\"],\n    \"breakdown\": \x7b\n        \"question1\": <score>,\n        \"question2\": <score>,\n        ...\n    \x7d\n\x7d\n\n"
    ++ suffix

/-- The api-key override step at the top of `evaluate_submission`
(lines 297–307): resolve the provider, validate the key, swap in a new
client/key for the matching branch (note the dead `anthropic` branch:
resolution never produces that name), otherwise raise
`ValueError("Invalid API key for {provider}")`. -/
def applyOverride (vnet : String → String → Except String Bool)
    (s : GState) (model apiKey : String) : Except String GState :=
  let provider := getProviderFromModel s model
  if validateApiKey vnet apiKey provider then
    .ok (if provider = "groq" then { s with groq_api_key := some apiKey }
         else if provider = "anthropic" then { s with claude_client := some apiKey }
         else if provider = "openai" then { s with openai_client := some apiKey }
         else s)
  else .error ("Invalid API key for " ++ provider)

/-- Dict read `self.online_models.get(p, [])`. -/
def onlineList (s : GState) (p : String) : List String :=
  (List.lookup p s.online_models).getD []

/-- The provider routing of `evaluate_submission` (lines 342–349) plus
the client guards at the top of each `_call_*_api` helper; the selected
transport is the `net` oracle applied to the provider tag, the model,
the prompt, and the credential the call reads from the instance state
(the local ollama call needs none). -/
def routeCall (net : String → String → String → Option String → Except String String)
    (s : GState) (model prompt : String) : Except String String :=
  if (onlineList s "openai").contains model then
    match s.openai_client with
    | none => .error "OpenAI client not initialized"
    | some c => net "openai" model prompt (some c)
  else if (onlineList s "claude").contains model then
    match s.claude_client with
    | none => .error "Claude client not initialized"
    | some c => net "claude" model prompt (some c)
  else if (onlineList s "groq").contains model then
    match s.groq_api_key with
    | none => .error "Groq API key not configured"
    | some c => net "groq" model prompt (some c)
  else net "ollama" model prompt none

/-- `result = self._parse_json_response(response)` followed by
`result["raw_llm_output"] = response` (the item assignment raises when
the parsed JSON was not an object). -/
def gradedResult (response : String) : Except String Json :=
  (parseJsonResponse response).setKey "raw_llm_output" (.str response)

/-- The record returned by the inner `except` handler of
`evaluate_submission` (lines 363–371). -/
def apiCallErrorRecord (e : String) : Json :=
  .obj
    [("score", .int 0),
     ("feedback", .str ("Error calling API: " ++ e)),
     ("improvements", .arr [.str "API call failed"]),
     ("breakdown", .obj [("error", .str e)]),
     ("raw_llm_output", .str e)]

/-- The record returned by the outer `except` handler of
`evaluate_submission` (lines 373–382). -/
def gradingErrorRecord (e : String) : Json :=
  .obj
    [("score", .int 0),
     ("feedback", .str ("Error during grading: " ++ e)),
     ("improvements", .arr [.str "System error occurred"]),
     ("breakdown", .obj [("error", .str e)]),
     ("raw_llm_output", .str e)]

/-- The inner `try` of `evaluate_submission`: call the provider, parse,
attach the raw output, then notify the completion callback (`cbErr`
models a callback that raises).  Any exception is the inner handler's. -/
def innerEval (net : String → String → String → Option String → Except String String)
    (cbErr : Option String) (s1 : GState) (model prompt : String) :
    Except String (String × Json) := do
  let response ← routeCall net s1 model prompt
  let result ← gradedResult response
  match cbErr with
  | some e => throw e
  | none => pure (response, result)

/-- `GradingSystem.evaluate_submission`: override handling under the
outer `try` (an invalid key raises into the outer handler, leaving the
state untouched), prompt construction, then the inner `try` whose
failures become the API-call error record.  The function returns the
grade record together with the post-call instance state — it never
raises. -/
def evaluate_submission (vnet : String → String → Except String Bool)
    (net : String → String → String → Option String → Except String String)
    (cbErr : Option String) (s : GState)
    (studentSolution idealSolution gradingInstructions model : String)
    (apiKey : Option String) : Json × GState :=
  let overridden : Except String GState :=
    match apiKey with
    | some k => applyOverride vnet s model k
    | none => .ok s
  match overridden with
  | .error e => (gradingErrorRecord e, s)
  | .ok s1 =>
    let prompt := buildPrompt gradingInstructions idealSolution studentSolution
      (jsonFormatPrompt (getProviderFromModel s1 model))
    match innerEval net cbErr s1 model prompt with
    | .ok rr => (rr.2, s1)
    | .error e => (apiCallErrorRecord e, s1)

/-! ## Shared lemmas -/

/-- The JSON extractor raises on every input: the first pattern contains
the `(?R)` construct, which `re` rejects while compiling, before any
text-dependent work happens. -/
theorem extractJsonObject_always_errors (t : String) :
    extractJsonObject t = .error reCompileError := rfl

/-- Whenever the sanitized response does not parse directly as JSON, the
parser lands in the terminal error branch with the `re.error` message. -/
theorem parse_fail_terminal (r : String)
    (h : jsonParse (sanitizeJsonText r) = none) :
    parseJsonResponse r = parseErrorRecord reCompileError r := by
  unfold parseJsonResponse parseJsonResponseBody
  simp only [h, extractJsonObject_always_errors]

/-- Whenever the sanitized response parses directly as JSON, the parser
returns the parsed value unchanged. -/
theorem parse_ok_direct (r : String) (j : Json)
    (h : jsonParse (sanitizeJsonText r) = some j) :
    parseJsonResponse r = j := by
  unfold parseJsonResponse parseJsonResponseBody
  simp only [h]

/-- A successful inner evaluation pairs the gateway response with the
record obtained from it by parse-and-attach. -/
theorem innerEval_ok_shape
    (net : String → String → String → Option String → Except String String)
    (cbErr : Option String) (s1 : GState) (model prompt : String)
    (rr : String × Json)
    (h : innerEval net cbErr s1 model prompt = .ok rr) :
    gradedResult rr.1 = .ok rr.2 := by
  unfold innerEval at h
  cases hr : routeCall net s1 model prompt with
  | error e => rw [hr] at h; simp [Bind.bind, Except.bind] at h
  | ok resp =>
    rw [hr] at h
    cases hg : gradedResult resp with
    | error e => simp [Bind.bind, Except.bind, hg] at h
    | ok j =>
      simp [Bind.bind, Except.bind, hg] at h
      cases cbErr with
      | some e => simp [throw, throwThe, MonadExceptOf.throw] at h
      | none =>
        simp [pure, Except.pure] at h
        rw [← h]
        exact hg

/-- `find?` hits a head element satisfying the predicate. -/
theorem find?_cons_true {α : Type} (p : α → Bool) (a : α) (l : List α)
    (h : p a = true) : List.find? p (a :: l) = some a := by
  simp [List.find?_cons, h]

/-! ## Claims -/

/-- The raw model reply of the end-to-end example in the specification. -/
def c2Response : String :=
  "Based on review: Score: 15/20. Feedback: Good work overall."

set_option maxRecDepth 4000 in
/-- C2: the spec expects the parse pipeline to heuristically recover
score 15 / feedback "Good work overall." / empty improvements and
breakdown from this no-JSON reply.  The code instead returns the
terminal parse-error record (score 0), because `_extract_json_object`
raises `re.error` on its `(?R)` pattern before the heuristic fallback
can run; the fallback, had it been reached, would have produced exactly
the record the claim describes. -/
theorem c2_parse_pipeline_behavior :
    parseJsonResponse c2Response = parseErrorRecord reCompileError c2Response
    ∧ (parseJsonResponse c2Response).lookup "score" = some (.int 0)
    ∧ (parseJsonResponse c2Response).lookup "feedback" =
        some (.str "Error parsing model response")
    ∧ heuristicExtract (sanitizeJsonText c2Response) c2Response =
        .obj [("score", .int 15),
              ("feedback", .str "Good work overall."),
              ("improvements", .arr []),
              ("breakdown", .obj []),
              ("raw_llm_output", .str c2Response)] :=
  ⟨by rfl, by rfl, by rfl, by rfl⟩

/-- C3: on an input with no JSON at all, the extractor does not return
`none` — it raises `re.error("unknown extension ?R at position 12")`
while compiling its first pattern, so the left-to-right candidate scan
never runs. -/
theorem c3_extractor_raises_instead_of_none :
    extractJsonObject "no json here" = .error reCompileError
    ∧ reCompileError = "unknown extension ?R at position 12" :=
  ⟨rfl, rfl⟩

/-- C4: whenever the parse pipeline fails (equivalently: whenever the
sanitized input is not directly valid JSON, the only failing case), the
failure is caught and converted into exactly the terminal record —
score 0, the fixed feedback and improvements texts, a breakdown `error`
entry holding the exception description, and the original unmodified
input as raw output; the parser itself is total. -/
theorem c4_parser_failure_is_terminal_record (response : String)
    (h : jsonParse (sanitizeJsonText response) = none) :
    parseJsonResponse response =
      .obj [("score", .int 0),
            ("feedback", .str "Error parsing model response"),
            ("improvements", .arr [.str "Unable to parse model response"]),
            ("breakdown", .obj [("error", .str reCompileError)]),
            ("raw_llm_output", .str response)] :=
  parse_fail_terminal response h

/-- C4 witness: binary garbage input lands in the terminal record. -/
theorem c4_witness :
    jsonParse (sanitizeJsonText "\x01\x02binary\x07garbage\x1f") = none
    ∧ parseJsonResponse "\x01\x02binary\x07garbage\x1f" =
      .obj [("score", .int 0),
            ("feedback", .str "Error parsing model response"),
            ("improvements", .arr [.str "Unable to parse model response"]),
            ("breakdown", .obj [("error", .str reCompileError)]),
            ("raw_llm_output", .str "\x01\x02binary\x07garbage\x1f")] :=
  ⟨rfl, c4_parser_failure_is_terminal_record "\x01\x02binary\x07garbage\x1f" rfl⟩

/-- C5 counterexample: a reply that is itself a JSON object is returned
unmodified by the parser, so its score is 37 — present but not clamped
to the 0–20 range the claim asserts. -/
theorem c5_counterexample_unclamped_score :
    (parseJsonResponse "\x7b\"score\": 37\x7d").lookup "score" = some (.int 37)
    ∧ (20 : ℚ) < (Dec.ofInt 37).toRat :=
  ⟨rfl, by norm_num [Dec.toRat, Dec.ofInt]⟩

/-- C5 amended: when the input does not parse directly as JSON the
returned record's score is exactly 0 (the terminal error path — the
clamping heuristic path is unreachable because the extractor always
raises); when the input does parse directly as JSON the parsed value is
returned unchanged, so its score may be absent or out of range. -/
theorem c5_amended_score_fields :
    (∀ r : String, jsonParse (sanitizeJsonText r) = none →
      (parseJsonResponse r).lookup "score" = some (.int 0))
    ∧ (∀ (r : String) (j : Json), jsonParse (sanitizeJsonText r) = some j →
      parseJsonResponse r = j) :=
  ⟨fun r h => by rw [parse_fail_terminal r h]; rfl,
   fun r j h => parse_ok_direct r j h⟩

/-- C5 witness: the spec's own clamping example "score: 37" actually
yields score 0, and a bare JSON object passes through unchanged. -/
theorem c5_witness :
    (parseJsonResponse "score: 37").lookup "score" = some (.int 0)
    ∧ parseJsonResponse "\x7b\"a\": 1\x7d" = .obj [("a", .int 1)] :=
  ⟨c5_amended_score_fields.1 "score: 37" rfl,
   c5_amended_score_fields.2 "\x7b\"a\": 1\x7d" (.obj [("a", .int 1)]) rfl⟩

/-! ## Sanitizer idempotence analysis (claim C6) -/

/-- Fence removal is the identity on backquote-free text. -/
theorem fenceScan_id (fuel : Nat) (l : List Char) (h : ∀ c ∈ l, c ≠ btick) :
    fenceScan fuel l = l := by
  induction fuel generalizing l with
  | zero => rfl
  | succ n ih =>
    cases l with
    | nil => rfl
    | cons c rest =>
      have hc : ¬ (btick = c) := fun e => h c (List.mem_cons_self c rest) e.symm
      have hguard : listStartsWith [btick, btick, btick] (c :: rest) = false := by
        simp [listStartsWith, hc]
      simp only [fenceScan, hguard, Bool.false_eq_true, if_false]
      rw [ih rest (fun x hx => h x (List.mem_cons_of_mem _ hx))]

/-- Comment removal is the identity on slash-free text. -/
theorem commentScan_id (fuel : Nat) (l : List Char) (h : ∀ c ∈ l, c ≠ '/') :
    commentScan fuel l = l := by
  induction fuel generalizing l with
  | zero => rfl
  | succ n ih =>
    cases l with
    | nil => rfl
    | cons c rest =>
      have hc : ¬ ('/' = c) := fun e => h c (List.mem_cons_self c rest) e.symm
      have hg1 : listStartsWith ['/', '/'] (c :: rest) = false := by
        simp [listStartsWith, hc]
      have hg2 : listStartsWith ['/', '*'] (c :: rest) = false := by
        simp [listStartsWith, hc]
      simp only [commentScan, hg1, hg2, Bool.false_eq_true, if_false]
      rw [ih rest (fun x hx => h x (List.mem_cons_of_mem _ hx))]

/-- Every character of the trailing-strip output occurs in the input. -/
theorem dropTrailWs_subset (l : List Char) : ∀ c ∈ dropTrailWs l, c ∈ l := by
  induction l with
  | nil => intro c hc; simp [dropTrailWs] at hc
  | cons a t ih =>
    intro c hc
    have hstep : dropTrailWs (a :: t) =
        if (dropTrailWs t).isEmpty && pyWs a then [] else a :: dropTrailWs t := rfl
    rw [hstep] at hc
    by_cases hcond : ((dropTrailWs t).isEmpty && pyWs a) = true
    · simp [hcond] at hc
    · simp only [hcond, Bool.false_eq_true, if_false] at hc
      rcases List.mem_cons.mp hc with h1 | h2
      · exact h1 ▸ List.mem_cons_self a t
      · exact List.mem_cons_of_mem a (ih c h2)

/-- Every character of the strip output occurs in the input. -/
theorem stripChars_subset (l : List Char) : ∀ c ∈ stripChars l, c ∈ l := by
  intro c hc
  have h1 := dropTrailWs_subset (l.dropWhile pyWs) c hc
  exact (List.dropWhile_sublist pyWs).mem h1

/-- Trailing strip is idempotent. -/
theorem dropTrailWs_idem (l : List Char) : dropTrailWs (dropTrailWs l) = dropTrailWs l := by
  induction l with
  | nil => rfl
  | cons a t ih =>
    have hstep : dropTrailWs (a :: t) =
        if (dropTrailWs t).isEmpty && pyWs a then [] else a :: dropTrailWs t := rfl
    rw [hstep]
    by_cases hcond : ((dropTrailWs t).isEmpty && pyWs a) = true
    · simp only [hcond, if_true]; rfl
    · simp only [hcond, Bool.false_eq_true, if_false]
      have hstep2 : dropTrailWs (a :: dropTrailWs t) =
          if (dropTrailWs (dropTrailWs t)).isEmpty && pyWs a then []
          else a :: dropTrailWs (dropTrailWs t) := rfl
      rw [hstep2, ih]
      simp only [hcond, Bool.false_eq_true, if_false]

/-- The head of a `dropWhile` result fails the predicate. -/
theorem dropWhile_head_false {p : Char → Bool} {l : List Char} {a : Char} {t : List Char}
    (h : l.dropWhile p = a :: t) : p a = false := by
  induction l with
  | nil => simp [List.dropWhile] at h
  | cons x xs ih =>
    rw [List.dropWhile_cons] at h
    by_cases hx : p x = true
    · exact ih (by simpa [hx] using h)
    · have : x = a := by simpa [hx] using congrArg (fun l => l.headI) h
      rw [← this]
      exact Bool.eq_false_iff.mpr hx

/-- Trailing strip keeps the head or empties the list. -/
theorem dropTrailWs_head (a : Char) (t : List Char) :
    dropTrailWs (a :: t) = [] ∨ dropTrailWs (a :: t) = a :: dropTrailWs t := by
  have hstep : dropTrailWs (a :: t) =
      if (dropTrailWs t).isEmpty && pyWs a then [] else a :: dropTrailWs t := rfl
  by_cases hcond : ((dropTrailWs t).isEmpty && pyWs a) = true
  · left; rw [hstep]; simp [hcond]
  · right; rw [hstep]; simp only [hcond, Bool.false_eq_true, if_false]

/-- Python `strip` is idempotent. -/
theorem stripChars_idem (l : List Char) : stripChars (stripChars l) = stripChars l := by
  unfold stripChars
  cases hm : l.dropWhile pyWs with
  | nil => simp [dropTrailWs]
  | cons a t =>
    have ha : pyWs a = false := dropWhile_head_false hm
    rcases dropTrailWs_head a t with h0 | h1
    · rw [h0]; simp [dropTrailWs]
    · rw [h1]
      have hdw : (a :: dropTrailWs t).dropWhile pyWs = a :: dropTrailWs t := by
        simp [List.dropWhile_cons, ha]
      rw [hdw, ← h1, dropTrailWs_idem]

/-- C6 counterexample: on `"``/**/`abc``/**/`"` the comment pass glues
the surrounding backquotes into a fresh code fence, so a second
application strips further: `sanitize x = "```abc```"` but
`sanitize (sanitize x) = "abc"`. -/
theorem c6_counterexample_not_idempotent :
    sanitizeJsonText (sanitizeJsonText "``/**/`abc``/**/`") ≠
      sanitizeJsonText "``/**/`abc``/**/`" := by
  decide

/-- On marker-free input the sanitizer is just a whitespace strip. -/
theorem sanitize_no_markers (y : String)
    (h : ∀ c ∈ y.toList, c ≠ btick ∧ c ≠ '/') :
    sanitizeJsonText y = ⟨stripChars y.toList⟩ := by
  show (let l1 := fenceScan (y.toList.length + 1) y.toList
        let l2 := commentScan (l1.length + 1) l1
        (⟨stripChars l2⟩ : String)) = ⟨stripChars y.toList⟩
  simp only
  rw [fenceScan_id _ _ (fun c hc => (h c hc).1)]
  rw [commentScan_id _ _ (fun c hc => (h c hc).2)]

/-- C6 amended: the sanitizer is not idempotent in general — removing a
comment can create a new fenced block that only a second pass strips.
It is idempotent on inputs free of fence and comment markers (here: no
backquote and no slash characters), where it reduces to whitespace
trimming. -/
theorem c6_amended_idempotent_without_markers (x : String)
    (h : ∀ c ∈ x.toList, c ≠ btick ∧ c ≠ '/') :
    sanitizeJsonText (sanitizeJsonText x) = sanitizeJsonText x := by
  have hs1 : sanitizeJsonText x = ⟨stripChars x.toList⟩ := sanitize_no_markers x h
  have htl : (sanitizeJsonText x).toList = stripChars x.toList := by
    rw [hs1]
    rfl
  have h2 : ∀ c ∈ (sanitizeJsonText x).toList, c ≠ btick ∧ c ≠ '/' := by
    intro c hc
    rw [htl] at hc
    exact h c (stripChars_subset x.toList c hc)
  have hs2 := sanitize_no_markers (sanitizeJsonText x) h2
  rw [hs2, htl, stripChars_idem, ← hs1]

/-- C6 witness: idempotence on a marker-free input. -/
theorem c6_witness :
    (∀ c ∈ ("  hello world  " : String).toList, c ≠ btick ∧ c ≠ '/')
    ∧ sanitizeJsonText (sanitizeJsonText "  hello world  ") =
        sanitizeJsonText "  hello world  " :=
  ⟨by decide, c6_amended_idempotent_without_markers "  hello world  " (by decide)⟩

/-- C1: for every grading request — any solution texts, instructions,
model string, optional override key — and every behaviour of the
network and callback, `evaluate_submission` returns a record: either the
successful parse-and-attach of some gateway response, or one of the two
handler records, which carry score 0, a feedback text describing the
failure, and a breakdown `error` entry holding the exception
description.  No exception escapes to the caller. -/
theorem c1_evaluate_never_raises
    (vnet : String → String → Except String Bool)
    (net : String → String → String → Option String → Except String String)
    (cbErr : Option String) (s : GState)
    (stu idl ins model : String) (apiKey : Option String) :
    (∃ e, (evaluate_submission vnet net cbErr s stu idl ins model apiKey).1 =
          gradingErrorRecord e
      ∧ (gradingErrorRecord e).lookup "score" = some (.int 0)
      ∧ (gradingErrorRecord e).lookup "feedback" =
          some (.str ("Error during grading: " ++ e))
      ∧ ((gradingErrorRecord e).lookup "breakdown").bind (fun b => b.lookup "error") =
          some (.str e))
    ∨ (∃ e, (evaluate_submission vnet net cbErr s stu idl ins model apiKey).1 =
          apiCallErrorRecord e
      ∧ (apiCallErrorRecord e).lookup "score" = some (.int 0)
      ∧ (apiCallErrorRecord e).lookup "feedback" =
          some (.str ("Error calling API: " ++ e))
      ∧ ((apiCallErrorRecord e).lookup "breakdown").bind (fun b => b.lookup "error") =
          some (.str e))
    ∨ (∃ resp, gradedResult resp =
          .ok (evaluate_submission vnet net cbErr s stu idl ins model apiKey).1) := by
  rcases apiKey with _ | k
  · cases hin : innerEval net cbErr s model
        (buildPrompt ins idl stu (jsonFormatPrompt (getProviderFromModel s model))) with
    | ok rr =>
      right; right
      refine ⟨rr.1, ?_⟩
      have hshape := innerEval_ok_shape net cbErr s model
        (buildPrompt ins idl stu (jsonFormatPrompt (getProviderFromModel s model))) rr hin
      have hval : (evaluate_submission vnet net cbErr s stu idl ins model none).1 = rr.2 := by
        simp [evaluate_submission, hin]
      rw [hval]
      exact hshape
    | error e =>
      right; left
      exact ⟨e, by simp [evaluate_submission, hin], rfl, rfl, rfl⟩
  · cases hov : applyOverride vnet s model k with
    | error e =>
      left
      exact ⟨e, by simp [evaluate_submission, hov], rfl, rfl, rfl⟩
    | ok s1 =>
      cases hin : innerEval net cbErr s1 model
          (buildPrompt ins idl stu (jsonFormatPrompt (getProviderFromModel s1 model))) with
      | ok rr =>
        right; right
        refine ⟨rr.1, ?_⟩
        have hshape := innerEval_ok_shape net cbErr s1 model
          (buildPrompt ins idl stu (jsonFormatPrompt (getProviderFromModel s1 model))) rr hin
        have hval : (evaluate_submission vnet net cbErr s stu idl ins model (some k)).1 = rr.2 := by
          simp [evaluate_submission, hov, hin]
        rw [hval]
        exact hshape
      | error e =>
        right; left
        exact ⟨e, by simp [evaluate_submission, hov, hin], rfl, rfl, rfl⟩

/-- C9: when the caller-supplied override key fails live validation
against the resolved provider, the override step fails with
`ValueError("Invalid API key for {provider}")` — the invalid-credential
error naming that provider — and `evaluate_submission` reports it as the
terminal grading-error record (feedback and breakdown `error` both
carrying the provider-naming message), leaving the stored clients
untouched. -/
theorem c9_invalid_override_key
    (vnet : String → String → Except String Bool)
    (net : String → String → String → Option String → Except String String)
    (cbErr : Option String) (s : GState) (stu idl ins model k : String)
    (h : validateApiKey vnet k (getProviderFromModel s model) = false) :
    applyOverride vnet s model k =
      .error ("Invalid API key for " ++ getProviderFromModel s model)
    ∧ evaluate_submission vnet net cbErr s stu idl ins model (some k) =
      (gradingErrorRecord ("Invalid API key for " ++ getProviderFromModel s model), s)
    ∧ (gradingErrorRecord ("Invalid API key for " ++ getProviderFromModel s model)).lookup
        "breakdown" =
      some (.obj [("error", .str ("Invalid API key for " ++ getProviderFromModel s model))]) := by
  have h1 : applyOverride vnet s model k =
      .error ("Invalid API key for " ++ getProviderFromModel s model) := by
    simp [applyOverride, h]
  exact ⟨h1, by simp [evaluate_submission, h1], rfl⟩

/-- C9 witness: on a fresh state every model resolves to `local`, whose
validation branch always reports `False`, so any override key fails. -/
theorem c9_witness :
    validateApiKey (fun _ _ => .ok true) "badkey"
      (getProviderFromModel ⟨[], [], none, none, none⟩ "somemodel") = false
    ∧ (applyOverride (fun _ _ => .ok true) ⟨[], [], none, none, none⟩ "somemodel" "badkey" =
        .error ("Invalid API key for "
          ++ getProviderFromModel ⟨[], [], none, none, none⟩ "somemodel")
      ∧ evaluate_submission (fun _ _ => .ok true) (fun _ _ _ _ => .ok "reply") none
          ⟨[], [], none, none, none⟩ "stu" "idl" "ins" "somemodel" (some "badkey") =
        (gradingErrorRecord ("Invalid API key for "
          ++ getProviderFromModel ⟨[], [], none, none, none⟩ "somemodel"),
         ⟨[], [], none, none, none⟩)
      ∧ (gradingErrorRecord ("Invalid API key for "
          ++ getProviderFromModel ⟨[], [], none, none, none⟩ "somemodel")).lookup "breakdown" =
        some (.obj [("error", .str ("Invalid API key for "
          ++ getProviderFromModel ⟨[], [], none, none, none⟩ "somemodel"))])) :=
  ⟨by rfl,
   c9_invalid_override_key (fun _ _ => .ok true) (fun _ _ _ _ => .ok "reply") none
     ⟨[], [], none, none, none⟩ "stu" "idl" "ins" "somemodel" "badkey" (by rfl)⟩

/-- C10: a validated override key permanently replaces the stored
client/key of the resolved provider in the instance state (no other
credential field changes), a later evaluation without an override never
modifies the stored credentials, and the provider call of such a later
evaluation reads the overridden credential from the state — not the one
the environment supplied at startup. -/
theorem c10_override_persists
    (vnet : String → String → Except String Bool)
    (net : String → String → String → Option String → Except String String)
    (cbErr : Option String) (s : GState) (stu idl ins model k : String)
    (hval : validateApiKey vnet k (getProviderFromModel s model) = true) :
    (getProviderFromModel s model = "openai" →
        (evaluate_submission vnet net cbErr s stu idl ins model (some k)).2 =
          { s with openai_client := some k })
    ∧ (getProviderFromModel s model = "groq" →
        (evaluate_submission vnet net cbErr s stu idl ins model (some k)).2 =
          { s with groq_api_key := some k })
    ∧ (getProviderFromModel s model = "anthropic" →
        (evaluate_submission vnet net cbErr s stu idl ins model (some k)).2 =
          { s with claude_client := some k })
    ∧ (∀ (s2 : GState) (stu2 idl2 ins2 model2 : String),
        (evaluate_submission vnet net cbErr s2 stu2 idl2 ins2 model2 none).2 = s2)
    ∧ (∀ model2 prompt2 : String,
        (onlineList { s with openai_client := some k } "openai").contains model2 = true →
        routeCall net { s with openai_client := some k } model2 prompt2 =
          net "openai" model2 prompt2 (some k))
    ∧ (∀ model2 prompt2 : String,
        (onlineList { s with groq_api_key := some k } "openai").contains model2 = false →
        (onlineList { s with groq_api_key := some k } "claude").contains model2 = false →
        (onlineList { s with groq_api_key := some k } "groq").contains model2 = true →
        routeCall net { s with groq_api_key := some k } model2 prompt2 =
          net "groq" model2 prompt2 (some k)) := by
  have hov : applyOverride vnet s model k = .ok
      (if getProviderFromModel s model = "groq" then { s with groq_api_key := some k }
       else if getProviderFromModel s model = "anthropic" then { s with claude_client := some k }
       else if getProviderFromModel s model = "openai" then { s with openai_client := some k }
       else s) := by
    simp [applyOverride, hval]
  have hsnd : ∀ s1, applyOverride vnet s model k = .ok s1 →
      (evaluate_submission vnet net cbErr s stu idl ins model (some k)).2 = s1 := by
    intro s1 h1
    cases hin : innerEval net cbErr s1 model
        (buildPrompt ins idl stu (jsonFormatPrompt (getProviderFromModel s1 model))) with
    | ok rr => simp [evaluate_submission, h1, hin]
    | error e => simp [evaluate_submission, h1, hin]
  refine ⟨?_, ?_, ?_, ?_, ?_, ?_⟩
  · intro hp
    have hfin := hov
    rw [hp, if_neg (by decide), if_neg (by decide), if_pos rfl] at hfin
    exact hsnd _ hfin
  · intro hp
    have hfin := hov
    rw [hp, if_pos rfl] at hfin
    exact hsnd _ hfin
  · intro hp
    have hfin := hov
    rw [hp, if_neg (by decide), if_pos rfl] at hfin
    exact hsnd _ hfin
  · intro s2 stu2 idl2 ins2 model2
    cases hin : innerEval net cbErr s2 model2
        (buildPrompt ins2 idl2 stu2 (jsonFormatPrompt (getProviderFromModel s2 model2))) with
    | ok rr => simp [evaluate_submission, hin]
    | error e => simp [evaluate_submission, hin]
  · intro model2 prompt2 hc
    unfold routeCall
    rw [hc]
    simp
  · intro model2 prompt2 hc1 hc2 hc3
    unfold routeCall
    rw [hc1, hc2, hc3]
    simp

/-- C10 witness: a groq-resolved model with a validated override key;
the stored groq key is replaced, the no-override evaluation keeps the
state, and the provider call reads the new key. -/
theorem c10_witness :
    validateApiKey (fun _ _ => .ok true) "newkey"
      (getProviderFromModel ⟨[], [("groq", ["mixtral"])], none, none, some "oldkey"⟩ "mixtral")
      = true
    ∧ ((evaluate_submission (fun _ _ => .ok true) (fun _ _ _ _ => .ok "reply") none
          ⟨[], [("groq", ["mixtral"])], none, none, some "oldkey"⟩
          "stu" "idl" "ins" "mixtral" (some "newkey")).2 =
        { local_models := [], online_models := [("groq", ["mixtral"])],
          openai_client := none, claude_client := none, groq_api_key := some "newkey" }
      ∧ routeCall (fun _ _ _ _ => .ok "reply")
          { (⟨[], [("groq", ["mixtral"])], none, none, some "oldkey"⟩ : GState) with
            groq_api_key := some "newkey" } "mixtral" "p" =
        (fun _ _ _ _ => (.ok "reply" : Except String String)) "groq" "mixtral" "p"
          (some "newkey")) :=
  ⟨by rfl,
   (c10_override_persists (fun _ _ => .ok true) (fun _ _ _ _ => .ok "reply") none
      ⟨[], [("groq", ["mixtral"])], none, none, some "oldkey"⟩
      "stu" "idl" "ins" "mixtral" "newkey" (by rfl)).2.1 (by rfl),
   (c10_override_persists (fun _ _ => .ok true) (fun _ _ _ _ => .ok "reply") none
      ⟨[], [("groq", ["mixtral"])], none, none, some "oldkey"⟩
      "stu" "idl" "ins" "mixtral" "newkey" (by rfl)).2.2.2.2.2 "mixtral" "p"
      (by rfl) (by rfl) (by rfl)⟩

/-- C7 counterexample: with all three hosted clients configured, a
failure of the openai listing query alone does not leave only the
openai list empty — it aborts the whole refresh: the claude and groq
queries (although they would succeed) contribute nothing, and even the
already-fetched local list is discarded; `online_models` ends empty. -/
theorem c7_counterexample_hosted_failure_wipes :
    refresh_available_models ⟨["llama2"], [], some "okey", some "ckey", some "gkey"⟩
        (.ok ["llama2"]) (.error "APIConnectionError")
        (.ok ["claude-3-opus"]) (.ok [("llama3-70b", some true)]) =
      ⟨[], [], some "okey", some "ckey", some "gkey"⟩ := by rfl

/-- C7 amended: only the local provider's failure is contained (it acts
exactly like an empty local listing, and the hosted fetches still run);
an exception in a hosted provider's listing query aborts the rest of
the refresh and clears `local_models` and all of `online_models`
(clients are untouched). -/
theorem c7_amended_failure_containment :
    (∀ (s : GState) (e : String) (oR : Except String (List String))
       (cR : NetRes (List String)) (gR : NetRes (List (String × Option Bool))),
       refresh_available_models s (.exc e) oR cR gR =
         refresh_available_models s (.ok []) oR cR gR)
    ∧ (∀ (s : GState) (localR : NetRes (List String)) (e : String)
       (cR : NetRes (List String)) (gR : NetRes (List (String × Option Bool))),
       s.openai_client.isSome = true →
       refresh_available_models s localR (.error e) cR gR =
         { s with local_models := [], online_models := [] })
    ∧ (∀ (s : GState) (localR : NetRes (List String))
       (oR : Except String (List String)) (e : String)
       (gR : NetRes (List (String × Option Bool))),
       s.claude_client.isSome = true →
       (s.openai_client = none ∨ ∃ l, oR = Except.ok l) →
       refresh_available_models s localR oR (.exc e) gR =
         { s with local_models := [], online_models := [] })
    ∧ (∀ (s : GState) (localR : NetRes (List String))
       (oR : Except String (List String)) (cR : NetRes (List String)) (e : String),
       s.groq_api_key.isSome = true →
       (s.openai_client = none ∨ ∃ l, oR = Except.ok l) →
       (s.claude_client = none ∨ (∃ l, cR = NetRes.ok l) ∨ cR = NetRes.badStatus) →
       refresh_available_models s localR oR cR (.exc e) =
         { s with local_models := [], online_models := [] }) := by
  refine ⟨fun s e oR cR gR => rfl, ?_, ?_, ?_⟩
  · intro s localR e cR gR hso
    obtain ⟨lm, om, oc, cc, gc⟩ := s
    obtain ⟨c, hc⟩ := Option.isSome_iff_exists.mp hso
    simp only at hc
    subst hc
    cases localR <;> rfl
  · intro s localR oR e gR hcs ho
    obtain ⟨lm, om, oc, cc, gc⟩ := s
    obtain ⟨c, hc⟩ := Option.isSome_iff_exists.mp hcs
    simp only at hc
    subst hc
    rcases ho with hnone | ⟨l, hok⟩
    · simp only at hnone
      subst hnone
      cases localR <;> rfl
    · subst hok
      cases oc <;> cases localR <;> rfl
  · intro s localR oR cR e hgs ho hc
    obtain ⟨lm, om, oc, cc, gc⟩ := s
    obtain ⟨g, hg⟩ := Option.isSome_iff_exists.mp hgs
    simp only at hg
    subst hg
    rcases ho with honone | ⟨l, hok⟩
    · simp only at honone
      subst honone
      rcases hc with hcnone | ⟨l2, hcok⟩ | hcbad
      · simp only at hcnone
        subst hcnone
        cases localR <;> rfl
      · subst hcok
        cases cc <;> cases localR <;> rfl
      · subst hcbad
        cases cc <;> cases localR <;> rfl
    · subst hok
      rcases hc with hcnone | ⟨l2, hcok⟩ | hcbad
      · simp only at hcnone
        subst hcnone
        cases oc <;> cases localR <;> rfl
      · subst hcok
        cases oc <;> cases cc <;> cases localR <;> rfl
      · subst hcbad
        cases oc <;> cases cc <;> cases localR <;> rfl

/-- C7 amended witness: a local failure is contained; an openai, a
claude and a groq listing exception each wipe the registry. -/
theorem c7_amended_witness :
    refresh_available_models ⟨["old"], [], none, some "ck", none⟩
        (.exc "ConnectionError") (.ok []) (.ok ["c1"]) .badStatus =
      refresh_available_models ⟨["old"], [], none, some "ck", none⟩
        (.ok []) (.ok []) (.ok ["c1"]) .badStatus
    ∧ (⟨["old"], [], some "ok", some "ck", none⟩ : GState).openai_client.isSome = true
    ∧ refresh_available_models ⟨["old"], [], some "ok", some "ck", none⟩
        (.ok ["lm"]) (.error "boom") (.ok ["c1"]) .badStatus =
      { (⟨["old"], [], some "ok", some "ck", none⟩ : GState) with
        local_models := [], online_models := [] }
    ∧ refresh_available_models ⟨["old"], [], some "ok", some "ck", none⟩
        (.ok ["lm"]) (.ok ["gpt-4"]) (.exc "Timeout") .badStatus =
      { (⟨["old"], [], some "ok", some "ck", none⟩ : GState) with
        local_models := [], online_models := [] }
    ∧ refresh_available_models ⟨["old"], [], some "ok", some "ck", some "gk"⟩
        (.ok ["lm"]) (.ok ["gpt-4"]) (.ok ["c1"]) (.exc "Timeout") =
      { (⟨["old"], [], some "ok", some "ck", some "gk"⟩ : GState) with
        local_models := [], online_models := [] } :=
  ⟨c7_amended_failure_containment.1 ⟨["old"], [], none, some "ck", none⟩
     "ConnectionError" (.ok []) (.ok ["c1"]) .badStatus,
   by rfl,
   c7_amended_failure_containment.2.1 ⟨["old"], [], some "ok", some "ck", none⟩
     (.ok ["lm"]) "boom" (.ok ["c1"]) .badStatus (by rfl),
   c7_amended_failure_containment.2.2.1 ⟨["old"], [], some "ok", some "ck", none⟩
     (.ok ["lm"]) (.ok ["gpt-4"]) "Timeout" .badStatus (by rfl)
     (Or.inr ⟨["gpt-4"], rfl⟩),
   c7_amended_failure_containment.2.2.2 ⟨["old"], [], some "ok", some "ck", some "gk"⟩
     (.ok ["lm"]) (.ok ["gpt-4"]) (.ok ["c1"]) "Timeout" (by rfl)
     (Or.inr ⟨["gpt-4"], rfl⟩) (Or.inr (Or.inl ⟨["c1"], rfl⟩))⟩

/-- C8: on a registry refreshed from the startup state, a model id in
the cached openai list (and absent from the local list) resolves to
`"openai"`; and on any registry state, an id found in no provider list
resolves to `"local"`. -/
theorem c8_provider_resolution :
    (∀ (okey : String) (ck gk : Option String) (llist olist clist : List String)
       (glist : List (String × Option Bool)) (m : String),
       m ∈ olist.filter isGptModel → m ∉ llist →
       getProviderFromModel
         (refresh_available_models ⟨[], [], some okey, ck, gk⟩
           (.ok llist) (.ok olist) (.ok clist) (.ok glist)) m = "openai")
    ∧ (∀ (s : GState) (m : String), m ∉ s.local_models →
       (∀ p ∈ s.online_models, m ∉ p.2) → getProviderFromModel s m = "local") := by
  constructor
  · intro okey ck gk llist olist clist glist m h1 h2
    have hcont : (olist.filter isGptModel).contains m = true :=
      List.elem_eq_true_of_mem h1
    have hres : ∀ (om2 : List (String × List String)) (oc cc gc : Option String),
        getProviderFromModel
          ⟨llist, ("openai", olist.filter isGptModel) :: om2, oc, cc, gc⟩ m = "openai" := by
      intro om2 oc cc gc
      unfold getProviderFromModel
      rw [if_neg h2,
        find?_cons_true (fun pm => pm.2.contains m)
          ("openai", olist.filter isGptModel) om2 hcont]
    cases ck with
    | none =>
      cases gk with
      | none => exact hres [] _ _ _
      | some gkey =>
        exact hres
          [("groq", (glist.filter (fun en => en.2.getD true)).map (fun en => en.1))] _ _ _
    | some ckey =>
      cases gk with
      | none => exact hres [("claude", clist)] _ _ _
      | some gkey =>
        exact hres
          [("claude", clist),
           ("groq", (glist.filter (fun en => en.2.getD true)).map (fun en => en.1))] _ _ _
  · intro s m h1 h2
    unfold getProviderFromModel
    rw [if_neg h1]
    have hnone : s.online_models.find? (fun pm => pm.2.contains m) = none := by
      rw [List.find?_eq_none]
      intro pm hpm hc
      exact h2 pm hpm (List.mem_of_elem_eq_true hc)
    rw [hnone]

/-- C8 witness: a gpt id cached for openai resolves to openai; an
unknown id resolves to local. -/
theorem c8_witness :
    ("gpt-4o" ∈ (["gpt-4o", "o1-mini"].filter isGptModel) ∧ "gpt-4o" ∉ (["llama2"] : List String)
      ∧ getProviderFromModel
          (refresh_available_models ⟨[], [], some "okey", some "ckey", some "gkey"⟩
            (.ok ["llama2"]) (.ok ["gpt-4o", "o1-mini"]) (.ok ["claude-3"])
            (.ok [("mixtral", none)])) "gpt-4o" = "openai")
    ∧ ("zzz" ∉ (["llama2"] : List String)
      ∧ getProviderFromModel ⟨["llama2"], [("openai", ["gpt-4o"])], none, none, none⟩ "zzz"
          = "local") :=
  ⟨⟨by decide, by decide,
    c8_provider_resolution.1 "okey" (some "ckey") (some "gkey") ["llama2"]
      ["gpt-4o", "o1-mini"] ["claude-3"] [("mixtral", none)] "gpt-4o"
      (by decide) (by decide)⟩,
   ⟨by decide,
    c8_provider_resolution.2 ⟨["llama2"], [("openai", ["gpt-4o"])], none, none, none⟩ "zzz"
      (by decide) (by decide)⟩⟩

end Gradewise
